import Mathlib

/-!
Shallow embedding of the `SocketService` class from `src/client.ts` of the
typesocket repository, together with proofs about the claims on its
validation / queuing / listener-rebinding / reconnection behaviour.

Modelling conventions:
* Payloads are natural numbers (`Val`); a zod schema is embedded as a
  function `Val → Option Val` (`safeParse`: `some parsed` on success,
  `none` on failure; the parsed value may differ from the input, as with
  zod transforms).
* JavaScript functions are identified by reference.  `Fn.user k` is a
  caller-supplied function, `Fn.gen k` is a function object created inside
  the service (`on`'s `wrapped` closure, `waitFor`'s `handler` closure);
  the body of a generated function is recorded in the `closures` table.
  `socket.off(ev, f)` removes a binding only when the bound function is
  reference-equal to `f`, exactly as in socket.io's emitter.
* In the source, the function bound to the socket by `on` is always the
  `wrapped` closure, whose inner function is the caller-supplied handler —
  either a plain caller function or `waitFor`'s `handler` closure.  The
  interpreter therefore dereferences one wrapper level (`runBound`) and
  interprets the inner function as a leaf (`runInner`); a wrapper nested
  inside a wrapper is not constructible through the public API.
* Timers (`setTimeout`) are modelled as explicit state plus an explicit
  firing step (`fireWaitTimer`, `fireBackoffTimer`); real time is not
  modelled.
* Observable effects (calls into the transport, the caller's handlers,
  `console.error`, lifecycle hooks) are collected as `Action` traces.
* `once`, `use`/middleware registration and the env-based config loader
  have no claim about them and are not given operations; the middleware
  list is carried in the state so that the wrapped handlers' middleware
  pass appears in traces, as in the source.
-/

namespace TypeSocket

abbrev Val := Nat

abbrev Event := String

/-- A zod schema, embedded as its `safeParse`: `some parsed` on success
(`parsed` is the schema-normalized value), `none` on validation failure. -/
abbrev Schema := Val → Option Val

/-- A payload conforms to a schema when it is a value the schema can
produce, i.e. it lies in the image of the schema's successful parses. -/
def Conforms (sch : Schema) (v : Val) : Prop := ∃ raw, sch raw = some v

/-- A JavaScript function reference: `user k` is caller-supplied,
`gen k` was created by the service (its body lives in the closure table). -/
inductive Fn where
  | user (k : Nat)
  | gen (k : Nat)
deriving DecidableEq

/-- Body of a service-created closure: `wrappedOn ev inner` is the
`wrapped` closure built by `on(ev, inner)` (src/client.ts:137-149);
`waitHandler w` is the `handler` closure of `waitFor` #`w`
(src/client.ts:199-209). -/
inductive FnBody where
  | wrappedOn (ev : Event) (inner : Fn)
  | waitHandler (w : Nat)
deriving DecidableEq

/-- Settlement state of a `waitFor` promise. -/
inductive PState where
  | pending
  | resolved (v : Val)
  | rejectedTimeout
  | rejectedValidation
deriving DecidableEq

/-- Book-keeping for one `waitFor` call: its timer, its promise and the
reference of its internal `handler` closure. -/
structure WaitRec where
  w : Nat
  ev : Event
  timeoutMs : Nat
  timerActive : Bool
  promise : PState
  selfFn : Fn
deriving DecidableEq

/-- The socket.io `Socket`: its `connected` flag and the listeners bound
via `socket.on`, in attachment order. -/
structure Sock where
  connected : Bool
  bindings : List (Event × Fn)
deriving DecidableEq

/-- Observable effects of the service. -/
inductive Action where
  | transportEmit (ev : Event) (payload : Val)
  | transportEmitAck (ev : Event) (payload : Val)
  | logError (src : String) (ev : Event)
  | callerHandler (k : Nat) (payload : Val)
  | middlewareRun (m : Nat) (ev : Event) (raw : Val)
  | waiterInvoked (w : Nat) (v : Val)
  | onConnectHook
deriving DecidableEq

/-- State of one `SocketService` instance (src/client.ts:6-14), plus the
immutable event contracts given to the constructor and the pending-timer
books.  `urlTruthy` records whether the merged `_config.url` is truthy;
`inited` records whether `init` has run (so `_config` exists). -/
structure Svc where
  onEvents : Event → Schema
  emitEvents : Event → Schema
  sock : Option Sock
  inited : Bool
  urlTruthy : Bool
  retryCount : Nat
  queue : List (Event × Val)
  listeners : List (Event × List Fn)
  closures : List (Nat × FnBody)
  waiters : List WaitRec
  middlewares : List Nat
  backoff : List Nat
  nextId : Nat

/-- Look up a generated closure's body by its id. -/
def lookupClosure (cs : List (Nat × FnBody)) (k : Nat) : Option FnBody :=
  match cs with
  | [] => none
  | (i, b) :: rest => if i = k then some b else lookupClosure rest k

/-- Look up the record of `waitFor` #`w`. -/
def findWaiter (ws : List WaitRec) (w : Nat) : Option WaitRec :=
  match ws with
  | [] => none
  | r :: rest => if r.w = w then some r else findWaiter rest w

/-- Update the record of `waitFor` #`w` in place. -/
def updWaiter (ws : List WaitRec) (w : Nat) (f : WaitRec → WaitRec) : List WaitRec :=
  ws.map (fun r => if r.w = w then f r else r)

/-- The listeners bound on the current socket ( `[]` when the socket is
null ). -/
def sockBindings (s : Svc) : List (Event × Fn) :=
  match s.sock with
  | none => []
  | some sk => sk.bindings

/-- `this.socket?.on(ev, f)`: append a binding if a socket exists. -/
def sockOn (s : Svc) (ev : Event) (f : Fn) : Svc :=
  match s.sock with
  | none => s
  | some sk => { s with sock := some { sk with bindings := sk.bindings ++ [(ev, f)] } }

/-- `this.socket?.off(ev, f)`: remove the bindings of `ev` whose bound
function is reference-equal to `f` (socket.io emitter semantics). -/
def sockOff (s : Svc) (ev : Event) (f : Fn) : Svc :=
  match s.sock with
  | none => s
  | some sk =>
    let sk1 := { sk with bindings := sk.bindings.filter (fun p => !(p.1 == ev && p.2 == f)) }
    { s with sock := some sk1 }

/-- `runMiddlewares` (src/client.ts:267-275): every registered middleware
observes the raw event; failures are caught in the source, so the pass is
a pure sequence of observer calls. -/
def mwActs (s : Svc) (ev : Event) (raw : Val) : List Action :=
  s.middlewares.map (fun m => Action.middlewareRun m ev raw)

/-- The body of `waitFor`'s `handler` closure (src/client.ts:199-209),
invoked with the value the enclosing `wrapped` closure passed it: run the
middlewares, re-parse; on success clear the timer, call
`off(event, handler)` (which matches against the never-bound `handler`
reference itself) and resolve; on failure reject with the validation
error.  Settling an already-settled promise is a no-op, as in JS. -/
def runWaiter (s : Svc) (w : Nat) (v : Val) : Svc × List Action :=
  match findWaiter s.waiters w with
  | none => (s, [Action.waiterInvoked w v])
  | some r0 =>
    let mws := mwActs s r0.ev v
    match s.onEvents r0.ev v with
    | some d =>
      let s1 := { s with waiters := updWaiter s.waiters w (fun r =>
        { r with timerActive := false,
                 promise := if r.promise = PState.pending then PState.resolved d else r.promise }) }
      (sockOff s1 r0.ev r0.selfFn, Action.waiterInvoked w v :: mws)
    | none =>
      ({ s with waiters := updWaiter s.waiters w (fun r =>
        { r with promise := if r.promise = PState.pending then PState.rejectedValidation else r.promise }) },
       Action.waiterInvoked w v :: mws)

/-- Interpret the inner (caller-supplied) function of a `wrapped` closure:
a plain caller handler just runs; `waitFor`'s `handler` closure runs its
body.  The public API never makes a `wrapped` closure the inner function
of another `wrapped` closure, so that case is unreachable. -/
def runInner (s : Svc) (f : Fn) (v : Val) : Svc × List Action :=
  match f with
  | Fn.user k => (s, [Action.callerHandler k v])
  | Fn.gen g =>
    match lookupClosure s.closures g with
    | some (FnBody.waitHandler w) => runWaiter s w v
    | some (FnBody.wrappedOn _ _) => (s, [])
    | none => (s, [])

/-- Invoke one function bound on the socket with a raw inbound payload.
The bound function is a `wrapped` closure (src/client.ts:137-149): run
the middlewares, `safeParse` the raw value; on success call the inner
handler with the parsed value, on failure log and drop.  A directly bound
`waitHandler` or caller function (not producible via `on`) runs as a
leaf. -/
def runBound (s : Svc) (f : Fn) (v : Val) : Svc × List Action :=
  match f with
  | Fn.user k => (s, [Action.callerHandler k v])
  | Fn.gen g =>
    match lookupClosure s.closures g with
    | some (FnBody.wrappedOn ev inner) =>
      let mws := mwActs s ev v
      match s.onEvents ev v with
      | some d =>
        let out := runInner s inner d
        (out.1, mws ++ out.2)
      | none => (s, mws ++ [Action.logError "on" ev])
    | some (FnBody.waitHandler w) => runWaiter s w v
    | none => (s, [])

/-- Deliver a value to a snapshot list of bound functions in order
(socket.io copies the listener array before dispatching). -/
def deliverList (s : Svc) (fns : List Fn) (v : Val) : Svc × List Action :=
  match fns with
  | [] => (s, [])
  | f :: rest =>
    let o1 := runBound s f v
    let o2 := deliverList o1.1 rest v
    (o2.1, o1.2 ++ o2.2)

/-- The transport delivers inbound event `ev` with raw payload `raw`: every
listener currently bound for `ev` is invoked in order. -/
def deliver (s : Svc) (ev : Event) (raw : Val) : Svc × List Action :=
  match s.sock with
  | none => (s, [])
  | some sk => deliverList s ((sk.bindings.filter (fun p => p.1 == ev)).map Prod.snd) raw

/-- `Map`/`Set` insertion used by `on` (src/client.ts:151-155): create the
per-event set on first use, then add the wrapped handler at the end. -/
def registryAdd (regs : List (Event × List Fn)) (ev : Event) (f : Fn) :
    List (Event × List Fn) :=
  match regs with
  | [] => [(ev, [f])]
  | (e, fs) :: rest =>
    if e = ev then (e, fs ++ [f]) :: rest
    else (e, fs) :: registryAdd rest ev f

/-- Look up the stored handler set of an event in the listener registry. -/
def regLookup (regs : List (Event × List Fn)) (ev : Event) : Option (List Fn) :=
  match regs with
  | [] => none
  | (e, fs) :: rest => if e = ev then some fs else regLookup rest ev

/-- The (event, handler) pairs re-attached by `rebindListeners`
(src/client.ts:215-219): every stored wrapped handler of every event. -/
def rebindList (regs : List (Event × List Fn)) : List (Event × Fn) :=
  (regs.map (fun p => p.2.map (fun f => (p.1, f)))).flatten

/-- `emit` (src/client.ts:51-74, without the optional ack callback, which
only changes the arity of the transport call): `safeParse` the payload;
on failure log an error and return; on success hand the parsed value to
`this.socket?.emit`.  The function is total: the call never throws. -/
def emit (s : Svc) (ev : Event) (v : Val) : Svc × List Action :=
  match s.emitEvents ev v with
  | none => (s, [Action.logError "emit" ev])
  | some p =>
    match s.sock with
    | none => (s, [])
    | some _ => (s, [Action.transportEmit ev p])

/-- Settlement of the promise returned by `emitAsync`. -/
inductive EmitAsyncResult where
  | rejectedValidation
  | rejectedNotConnected
  | pendingAck (ev : Event) (payload : Val)
deriving DecidableEq

/-- Final outcome of an `emitAsync` promise given whether (and with what)
the transport invoked the ack callback. -/
inductive AsyncOutcome where
  | rejectedValidation
  | rejectedNotConnected
  | resolved (v : Val)
  | unresolved
deriving DecidableEq

/-- A promise settles exactly once: a rejection fixed at call time is
unaffected by anything that happens later (including a reconnection);
a pending ack resolves with the ack payload iff the ack callback runs. -/
def ackSettle (res : EmitAsyncResult) (ack : Option Val) : AsyncOutcome :=
  match res, ack with
  | EmitAsyncResult.rejectedValidation, _ => AsyncOutcome.rejectedValidation
  | EmitAsyncResult.rejectedNotConnected, _ => AsyncOutcome.rejectedNotConnected
  | EmitAsyncResult.pendingAck _ _, some r => AsyncOutcome.resolved r
  | EmitAsyncResult.pendingAck _ _, none => AsyncOutcome.unresolved

/-- `emitAsync` (src/client.ts:76-104): parse first; the returned promise
rejects on validation failure, rejects when `!this.socket?.connected`,
and otherwise emits with an ack callback whose invocation resolves it. -/
def emitAsync (s : Svc) (ev : Event) (v : Val) : Svc × List Action × EmitAsyncResult :=
  match s.emitEvents ev v with
  | none => (s, [], EmitAsyncResult.rejectedValidation)
  | some p =>
    match s.sock with
    | none => (s, [], EmitAsyncResult.rejectedNotConnected)
    | some sk =>
      if sk.connected then (s, [Action.transportEmitAck ev p], EmitAsyncResult.pendingAck ev p)
      else (s, [], EmitAsyncResult.rejectedNotConnected)

/-- `emitQueued` (src/client.ts:107-117): route through `emit` when
`this.socket?.connected`, otherwise push the raw (unvalidated) payload
onto the queue. -/
def emitQueued (s : Svc) (ev : Event) (v : Val) : Svc × List Action :=
  match s.sock with
  | some sk =>
    if sk.connected then emit s ev v
    else ({ s with queue := s.queue ++ [(ev, v)] }, [])
  | none => ({ s with queue := s.queue ++ [(ev, v)] }, [])

/-- Fine-grained model of the `flushQueue` loop (src/client.ts:119-125):
`while (queue.length > 0) { shift; socket?.emit(...) }`.  Each iteration
removes the head and hands it to the socket's emit; the loop condition
consults only the queue length, never the connection state.  `connAt i`
is the transport's `connected` flag at iteration `i` (an adversarial
schedule of mid-flush disconnections); the returned pairs record the flag
in force when each entry was handed over, and the second component is the
queue left when the loop exits. -/
def flushLoop : List (Event × Val) → (Nat → Bool) → Nat →
    List (Bool × Event × Val) × List (Event × Val)
  | [], _, _ => ([], [])
  | (e, d) :: rest, connAt, i =>
    let out := flushLoop rest connAt (i + 1)
    ((connAt i, e, d) :: out.1, out.2)

/-- `init` (src/client.ts:27-45): resolve the config on first call, open a
fresh socket (no listeners bound yet, not yet connected) and wire the
lifecycle hooks.  The wired `connect` hook is `connectStep` below. -/
def init (s : Svc) : Svc :=
  { s with inited := true, sock := some { connected := false, bindings := [] } }

/-- The `connect` lifecycle hook wired by `init` (src/client.ts:36-40):
`flushQueue()` — pop every queued entry and hand it to the socket's emit,
in FIFO order — then `rebindListeners()` — re-attach every stored wrapped
handler — then the caller's `onConnect` hook. -/
def connectStep (s : Svc) : Svc × List Action :=
  match s.sock with
  | none => (s, [])
  | some sk =>
    ( { s with
          sock := some { connected := true,
                         bindings := sk.bindings ++ rebindList s.listeners },
          queue := [] },
      s.queue.map (fun p => Action.transportEmit p.1 p.2) ++ [Action.onConnectHook] )

/-- `disconnect` (src/client.ts:225-228): close the transport and null the
handle. -/
def disconnect (s : Svc) : Svc := { s with sock := none }

/-- `on` (src/client.ts:131-158), named `on'` because `on` is reserved
notation in Mathlib: build the `wrapped` closure around the caller's
handler, store it in the persistent listener registry, and bind it (not
the caller's handler) on the current socket if one exists. -/
def on' (s : Svc) (ev : Event) (h : Fn) : Svc :=
  let wid := s.nextId
  let s1 := { s with
    closures := s.closures ++ [(wid, FnBody.wrappedOn ev h)],
    nextId := wid + 1,
    listeners := registryAdd s.listeners ev (Fn.gen wid) }
  sockOn s1 ev (Fn.gen wid)

/-- `off` (src/client.ts:180-185): forward the caller-supplied function
reference to `this.socket?.off`.  The persistent registry is not touched. -/
def off (s : Svc) (ev : Event) (f : Fn) : Svc := sockOff s ev f

/-- `waitFor` (src/client.ts:187-213): create the timeout timer and the
internal `handler` closure, then register that closure through `on` (so
the socket receives a `wrapped` closure whose inner function is
`handler`).  Returns the wait id. -/
def waitFor (s : Svc) (ev : Event) (timeoutMs : Nat) : Svc × Nat :=
  let w := s.nextId
  let s1 := { s with
    closures := s.closures ++ [(w, FnBody.waitHandler w)],
    waiters := s.waiters ++ [⟨w, ev, timeoutMs, true, PState.pending, Fn.gen w⟩],
    nextId := w + 1 }
  (on' s1 ev (Fn.gen w), w)

/-- The `waitFor` timeout firing (src/client.ts:194-197): if the timer was
not cleared, call `off(event, handler)` — again with the never-bound
`handler` reference — and reject with the timeout error (a no-op if the
promise already settled). -/
def fireWaitTimer (s : Svc) (w : Nat) : Svc :=
  match findWaiter s.waiters w with
  | none => s
  | some r0 =>
    if r0.timerActive then
      let s1 := sockOff s r0.ev r0.selfFn
      { s1 with waiters := updWaiter s1.waiters w (fun r =>
        { r with timerActive := false,
                 promise := if r.promise = PState.pending then PState.rejectedTimeout else r.promise }) }
    else s

/-- `reconnectWithBackoff` (src/client.ts:237-245): bail out unless
`this._config?.url` is truthy; compute the delay from the current
`retryCount` and schedule a timer.  `retryCount` is NOT modified here:
the increment sits inside the timer callback. -/
def reconnectWithBackoff (s : Svc) : Svc :=
  if s.inited && s.urlTruthy then
    { s with backoff := s.backoff ++ [min (1000 * 2 ^ s.retryCount) 30000] }
  else s

/-- The backoff timer callback firing (src/client.ts:240-244): `init()`
then `this.retryCount++`. -/
def fireBackoffTimer (s : Svc) : Svc :=
  match s.backoff with
  | [] => s
  | _ :: rest =>
    let s1 := init { s with backoff := rest }
    { s1 with retryCount := s1.retryCount + 1 }

/-- Promise state of `waitFor` #`w`, if that waiter exists. -/
def waiterPromise (s : Svc) (w : Nat) : Option PState :=
  (findWaiter s.waiters w).map (fun r => r.promise)

/-- Whether the timeout timer of `waitFor` #`w` is still pending. -/
def waiterTimerOn (s : Svc) (w : Nat) : Option Bool :=
  (findWaiter s.waiters w).map (fun r => r.timerActive)

/-- Every function currently bound on the socket was created by the
service (callers never obtain a reference to bind directly); this is the
shape `on`/`waitFor`-reachable states have. -/
def bindingsAllGen (s : Svc) : Bool :=
  (sockBindings s).all (fun p => match p.2 with
    | Fn.gen _ => true
    | Fn.user _ => false)

/-- Freshness of the id source: every generated closure id is below
`nextId` (true in every state reachable from a fresh service). -/
def closuresFreshB (s : Svc) : Bool :=
  s.closures.all (fun q => decide (q.1 < s.nextId))

/-- A fresh service as built by the constructor (src/client.ts:16-25),
before `init`. -/
def mkSvc (onE emitE : Event → Schema) : Svc :=
  { onEvents := onE, emitEvents := emitE, sock := none, inited := false,
    urlTruthy := true, retryCount := 0, queue := [], listeners := [],
    closures := [], waiters := [], middlewares := [], backoff := [],
    nextId := 0 }

/-- A fresh service after `init` and a successful connection. -/
def connSvc (onE emitE : Event → Schema) : Svc :=
  (connectStep (init (mkSvc onE emitE))).1

/-- Schema accepting every payload unchanged. -/
def natSchema : Schema := fun v => some v

/-- Schema accepting exactly the even payloads, unchanged. -/
def evenSchema : Schema := fun v => if v % 2 = 0 then some v else none

/-- Schema accepting exactly the payload `1`. -/
def oneSchema : Schema := fun v => if v = 1 then some 1 else none

/-- A transform-style schema (as with `z.transform` in zod): it accepts
`3` and normalizes it to `7`, and its own output `7` does not re-parse. -/
def stepSchema : Schema := fun v => if v = 3 then some 7 else none

/-- Inbound contracts used by the concrete witnesses. -/
def onEW : Event → Schema := fun _ => natSchema

/-- Outbound contracts used by the concrete witnesses. -/
def emitEW : Event → Schema := fun _ => evenSchema

/-- Connected witness service. -/
def svcW : Svc := connSvc onEW emitEW

/-- Witness service whose socket exists but is not connected. -/
def svcD : Svc := init (mkSvc onEW emitEW)

/-- Inbound contracts accepting exactly payload `1` on every event. -/
def onE1 : Event → Schema := fun _ => oneSchema

/-- C6 scenario: a connected service with one pending `waitFor` on
`"message"` (wait id 0, internal handler `gen 0`, bound wrapper `gen 1`). -/
def svc6 : Svc := (waitFor (connSvc onE1 emitEW) "message" 50).1

/-- C6 scenario after the timeout fired with no event delivered. -/
def svc6t : Svc := fireWaitTimer svc6 0

/-- C7 scenario: register caller handler `user 7` via `on`, then call
`off` with that same caller handler, exactly as the source's API invites. -/
def svc7 : Svc := off (on' (connSvc onE1 emitEW) "message" (Fn.user 7)) "message" (Fn.user 7)

/-- C8 scenario: an initialized service (so `_config.url` is truthy) with
retry count 0 and no pending backoff timer. -/
def svc8 : Svc := { mkSvc onEW emitEW with inited := true }

/-- C1-amended witness scenario: connected service with one registered
listener. -/
def svcA : Svc := on' svcW "m" (Fn.user 5)

/-- State after the C10 scenario: fresh connected service, one `waitFor`
registration on `ev`, then delivery of `raw`. -/
def c10post (onE emitE : Event → Schema) (ev : Event) (raw : Val) (t : Nat) : Svc :=
  (deliver ((waitFor (connSvc onE emitE) ev t).1) ev raw).1

/-- Transform-style inbound contracts for the C10 witness. -/
def stepOnE : Event → Schema := fun _ => stepSchema

/-! Helper lemmas: field preservation of the closure interpreters, and
absence of caller-handler invocations outside the validated path. -/

lemma sockOff_closures (s : Svc) (ev : Event) (f : Fn) :
    (sockOff s ev f).closures = s.closures := by
  unfold sockOff; cases s.sock <;> rfl

lemma sockOff_onEvents (s : Svc) (ev : Event) (f : Fn) :
    (sockOff s ev f).onEvents = s.onEvents := by
  unfold sockOff; cases s.sock <;> rfl

lemma sockOn_listeners (s : Svc) (ev : Event) (f : Fn) :
    (sockOn s ev f).listeners = s.listeners := by
  unfold sockOn; cases s.sock <;> rfl

lemma sockOn_closures (s : Svc) (ev : Event) (f : Fn) :
    (sockOn s ev f).closures = s.closures := by
  unfold sockOn; cases s.sock <;> rfl

lemma sockOn_onEvents (s : Svc) (ev : Event) (f : Fn) :
    (sockOn s ev f).onEvents = s.onEvents := by
  unfold sockOn; cases s.sock <;> rfl

lemma sockOn_queue (s : Svc) (ev : Event) (f : Fn) :
    (sockOn s ev f).queue = s.queue := by
  unfold sockOn; cases s.sock <;> rfl

lemma runWaiter_closures (s : Svc) (w : Nat) (v : Val) :
    (runWaiter s w v).1.closures = s.closures := by
  cases hf : findWaiter s.waiters w with
  | none => simp [runWaiter, hf]
  | some r0 =>
    cases hp : s.onEvents r0.ev v with
    | none => simp [runWaiter, hf, hp]
    | some d => simp [runWaiter, hf, hp, sockOff_closures]

lemma runWaiter_onEvents (s : Svc) (w : Nat) (v : Val) :
    (runWaiter s w v).1.onEvents = s.onEvents := by
  cases hf : findWaiter s.waiters w with
  | none => simp [runWaiter, hf]
  | some r0 =>
    cases hp : s.onEvents r0.ev v with
    | none => simp [runWaiter, hf, hp]
    | some d => simp [runWaiter, hf, hp, sockOff_onEvents]

lemma runInner_closures (s : Svc) (f : Fn) (v : Val) :
    (runInner s f v).1.closures = s.closures := by
  cases f with
  | user k => rfl
  | gen g =>
    cases hb : lookupClosure s.closures g with
    | none => simp [runInner, hb]
    | some b =>
      cases b with
      | wrappedOn e i => simp [runInner, hb]
      | waitHandler w => simp [runInner, hb, runWaiter_closures]

lemma runInner_onEvents (s : Svc) (f : Fn) (v : Val) :
    (runInner s f v).1.onEvents = s.onEvents := by
  cases f with
  | user k => rfl
  | gen g =>
    cases hb : lookupClosure s.closures g with
    | none => simp [runInner, hb]
    | some b =>
      cases b with
      | wrappedOn e i => simp [runInner, hb]
      | waitHandler w => simp [runInner, hb, runWaiter_onEvents]

lemma runBound_closures (s : Svc) (f : Fn) (v : Val) :
    (runBound s f v).1.closures = s.closures := by
  cases f with
  | user k => rfl
  | gen g =>
    cases hb : lookupClosure s.closures g with
    | none => simp [runBound, hb]
    | some b =>
      cases b with
      | waitHandler w => simp [runBound, hb, runWaiter_closures]
      | wrappedOn e i =>
        cases hp : s.onEvents e v with
        | none => simp [runBound, hb, hp]
        | some d => simp [runBound, hb, hp, runInner_closures]

lemma runBound_onEvents (s : Svc) (f : Fn) (v : Val) :
    (runBound s f v).1.onEvents = s.onEvents := by
  cases f with
  | user k => rfl
  | gen g =>
    cases hb : lookupClosure s.closures g with
    | none => simp [runBound, hb]
    | some b =>
      cases b with
      | waitHandler w => simp [runBound, hb, runWaiter_onEvents]
      | wrappedOn e i =>
        cases hp : s.onEvents e v with
        | none => simp [runBound, hb, hp]
        | some d => simp [runBound, hb, hp, runInner_onEvents]

lemma mw_no_caller (s : Svc) (ev : Event) (raw : Val) (k p : Nat) :
    Action.callerHandler k p ∉ mwActs s ev raw := by
  simp [mwActs]

lemma runWaiter_no_caller (s : Svc) (w : Nat) (v : Val) (k p : Nat) :
    Action.callerHandler k p ∉ (runWaiter s w v).2 := by
  cases hf : findWaiter s.waiters w with
  | none => simp [runWaiter, hf]
  | some r0 =>
    cases hp : s.onEvents r0.ev v with
    | none => simp [runWaiter, hf, hp, mwActs]
    | some d => simp [runWaiter, hf, hp, mwActs]

lemma runInner_caller (s : Svc) (f : Fn) (v : Val) (k p : Nat) :
    Action.callerHandler k p ∈ (runInner s f v).2 → f = Fn.user k ∧ p = v := by
  cases f with
  | user j =>
    intro hmem
    simp only [runInner, List.mem_singleton, Action.callerHandler.injEq] at hmem
    obtain ⟨h1, h2⟩ := hmem
    subst h1; subst h2; exact ⟨rfl, rfl⟩
  | gen g =>
    intro hmem
    exfalso
    cases hb : lookupClosure s.closures g with
    | none => simp [runInner, hb] at hmem
    | some b =>
      cases b with
      | wrappedOn e i => simp [runInner, hb] at hmem
      | waitHandler w =>
        simp only [runInner, hb] at hmem
        exact runWaiter_no_caller s w v k p hmem

lemma runBound_caller_conforms (s : Svc) (g : Nat) (v : Val) (k p : Nat) :
    Action.callerHandler k p ∈ (runBound s (Fn.gen g) v).2 →
    ∃ ev, Conforms (s.onEvents ev) p := by
  intro hmem
  cases hb : lookupClosure s.closures g with
  | none => simp [runBound, hb] at hmem
  | some b =>
    cases b with
    | waitHandler w =>
      simp only [runBound, hb] at hmem
      exact absurd hmem (runWaiter_no_caller s w v k p)
    | wrappedOn ev inner =>
      cases hp : s.onEvents ev v with
      | none => simp [runBound, hb, hp, mwActs] at hmem
      | some d =>
        simp only [runBound, hb, hp, List.mem_append] at hmem
        rcases hmem with hmw | hin
        · exact absurd hmw (mw_no_caller s ev v k p)
        · obtain ⟨_, hv⟩ := runInner_caller s inner d k p hin
          exact ⟨ev, v, by rw [hp, hv]⟩

lemma deliverList_caller_conforms :
    ∀ (fns : List Fn) (s : Svc) (v : Val) (k p : Nat),
      (∀ f ∈ fns, ∃ g, f = Fn.gen g) →
      Action.callerHandler k p ∈ (deliverList s fns v).2 →
      ∃ ev, Conforms (s.onEvents ev) p := by
  intro fns
  induction fns with
  | nil => intro s v k p _ h; simp [deliverList] at h
  | cons f rest ih =>
    intro s v k p hall hmem
    simp only [deliverList, List.mem_append] at hmem
    rcases hmem with h1 | h2
    · obtain ⟨g, rfl⟩ := hall f (List.mem_cons_self f rest)
      exact runBound_caller_conforms s g v k p h1
    · have hres := ih (runBound s f v).1 v k p
        (fun f' hf' => hall f' (List.mem_cons_of_mem f hf')) h2
      rwa [runBound_onEvents] at hres

lemma rebindList_cons (e : Event) (fs : List Fn) (rest : List (Event × List Fn)) :
    rebindList ((e, fs) :: rest) = fs.map (fun f => (e, f)) ++ rebindList rest := by
  simp [rebindList]

lemma mem_rebind_registryAdd :
    ∀ (regs : List (Event × List Fn)) (ev : Event) (f : Fn),
      (ev, f) ∈ rebindList (registryAdd regs ev f) := by
  intro regs ev f
  induction regs with
  | nil => simp [registryAdd, rebindList]
  | cons hd rest ih =>
    cases hd with
    | mk e fs =>
      by_cases he : e = ev
      · subst he
        simp [registryAdd, rebindList_cons]
      · simp only [registryAdd, if_neg he, rebindList_cons, List.mem_append]
        exact Or.inr ih

lemma lookupClosure_append_fresh :
    ∀ (cs : List (Nat × FnBody)) (n : Nat) (b : FnBody),
      (∀ q ∈ cs, q.1 ≠ n) → lookupClosure (cs ++ [(n, b)]) n = some b := by
  intro cs n b
  induction cs with
  | nil => intro _; simp [lookupClosure]
  | cons hd rest ih =>
    intro h
    have hne : hd.1 ≠ n := h hd (List.mem_cons_self hd rest)
    cases hd with
    | mk i bd =>
      simp only [List.cons_append, lookupClosure, if_neg hne]
      exact ih (fun q hq => h q (List.mem_cons_of_mem _ hq))

lemma deliverList_wrapped_user :
    ∀ (fns : List Fn) (s : Svc) (raw : Val) (ev : Event) (h g : Nat) (d : Val),
      Fn.gen g ∈ fns →
      lookupClosure s.closures g = some (FnBody.wrappedOn ev (Fn.user h)) →
      s.onEvents ev raw = some d →
      Action.callerHandler h d ∈ (deliverList s fns raw).2 := by
  intro fns
  induction fns with
  | nil => intro s raw ev h g d hmem _ _; simp at hmem
  | cons f rest ih =>
    intro s raw ev h g d hmem hb hp
    simp only [deliverList, List.mem_append]
    rcases List.mem_cons.mp hmem with heq | hmem'
    · subst heq
      left
      simp [runBound, hb, hp, runInner]
    · right
      refine ih (runBound s f raw).1 raw ev h g d hmem' ?_ ?_
      · rw [runBound_closures]; exact hb
      · rw [runBound_onEvents]; exact hp

/-! Claim theorems. -/

/-- C1, counterexample: the claim that every payload the core hands to the
transport's emit conforms to the declared request schema — "in particular
payloads queued by emitQueued while disconnected and later sent by the
flush" — is false.  With the request schema of `"send"` accepting exactly
the even payloads, `emitQueued("send", 3)` on a disconnected socket stores
the raw payload without validation (src/client.ts:115), and the flush on
connection hands `3` to the transport (src/client.ts:123) although `3`
conforms to no successful parse of the schema. -/
theorem c1_queued_flush_unvalidated :
    Action.transportEmit "send" 3 ∈ (connectStep (emitQueued svcD "send" 3).1).2 ∧
    ¬ Conforms (svcD.emitEvents "send") 3 := by
  constructor
  · decide
  · rintro ⟨raw, hraw⟩
    have hsch : svcD.emitEvents "send" raw = evenSchema raw := rfl
    rw [hsch] at hraw
    unfold evenSchema at hraw
    split at hraw
    · rename_i hcond
      injection hraw with h3
      subst h3
      exact absurd hcond (by decide)
    · exact Option.noConfusion hraw

/-- C1, amended: every payload handed to the transport by `emit` or
`emitAsync` is a successful parse of the declared request schema, and
every payload delivered to a caller-registered handler is a successful
parse of a declared response schema (given that, as in every state the
public API can produce, only service-created wrapped closures are bound
on the socket).  Payloads queued by `emitQueued` while disconnected are
excluded: they are flushed to the transport without validation
(see the counterexample). -/
theorem c1_amended_conformance :
    (∀ (s : Svc) (ev : Event) (v : Val) (e : Event) (p : Val),
        Action.transportEmit e p ∈ (emit s ev v).2 →
        e = ev ∧ s.emitEvents ev v = some p) ∧
    (∀ (s : Svc) (ev : Event) (v : Val) (e : Event) (p : Val),
        Action.transportEmitAck e p ∈ (emitAsync s ev v).2.1 →
        e = ev ∧ s.emitEvents ev v = some p) ∧
    (∀ (s : Svc) (ev : Event) (raw : Val) (k p : Nat),
        bindingsAllGen s = true →
        Action.callerHandler k p ∈ (deliver s ev raw).2 →
        ∃ e, Conforms (s.onEvents e) p) := by
  refine ⟨?_, ?_, ?_⟩
  · intro s ev v e p hmem
    cases hp : s.emitEvents ev v with
    | none => simp [emit, hp] at hmem
    | some q =>
      cases hs : s.sock with
      | none => simp [emit, hp, hs] at hmem
      | some sk =>
        simp only [emit, hp, hs, List.mem_singleton, Action.transportEmit.injEq] at hmem
        exact ⟨hmem.1, by rw [hmem.2]⟩
  · intro s ev v e p hmem
    cases hp : s.emitEvents ev v with
    | none => simp [emitAsync, hp] at hmem
    | some q =>
      cases hs : s.sock with
      | none => simp [emitAsync, hp, hs] at hmem
      | some sk =>
        cases hc : sk.connected with
        | false => simp [emitAsync, hp, hs, hc] at hmem
        | true =>
          simp only [emitAsync, hp, hs, hc, if_true, List.mem_singleton,
            Action.transportEmitAck.injEq] at hmem
          exact ⟨hmem.1, by rw [hmem.2]⟩
  · intro s ev raw k p hgen hmem
    cases hs : s.sock with
    | none => simp [deliver, hs] at hmem
    | some sk =>
      simp only [deliver, hs] at hmem
      refine deliverList_caller_conforms _ s raw k p ?_ hmem
      intro f hf
      simp only [List.mem_map] at hf
      obtain ⟨q, hq, rfl⟩ := hf
      have hq' : q ∈ sk.bindings := List.mem_of_mem_filter hq
      have hgen' : ∀ x ∈ sk.bindings,
          (match x.2 with | Fn.gen _ => true | Fn.user _ => false) = true := by
        have := hgen
        simp only [bindingsAllGen, sockBindings, hs, List.all_eq_true] at this
        exact this
      have hx := hgen' q hq'
      cases hqf : q.2 with
      | gen g => exact ⟨g, rfl⟩
      | user j => rw [hqf] at hx; simp at hx

/-- C1, witness for the amended theorem: a concrete delivery through a
registered listener yields a payload conforming to a declared response
schema. -/
theorem c1_amended_conformance_witness :
    ∃ e, Conforms (svcA.onEvents e) 3 :=
  c1_amended_conformance.2.2 svcA "m" 3 5 3 (by decide) (by decide)

/-- C2: with a transport present, `emit(E, P)` hands a payload to the
transport's emit iff `P` validates against `E`'s request schema; on
success exactly the schema-normalized parsed value is forwarded, on
failure the only effect is an error log (the call is a total function, so
it returns normally), and the service state is unchanged either way. -/
theorem c2_emit_validation_gate :
    ∀ (s : Svc) (ev : Event) (v : Val) (sk : Sock), s.sock = some sk →
      ((∃ p, Action.transportEmit ev p ∈ (emit s ev v).2) ↔
        (s.emitEvents ev v).isSome = true) ∧
      (∀ p, s.emitEvents ev v = some p →
        (emit s ev v).2 = [Action.transportEmit ev p]) ∧
      (s.emitEvents ev v = none →
        (emit s ev v).2 = [Action.logError "emit" ev]) ∧
      (emit s ev v).1 = s := by
  intro s ev v sk hs
  cases hp : s.emitEvents ev v with
  | none => simp [emit, hp, hs]
  | some q => simp [emit, hp, hs]

/-- C2, witness: a valid payload is forwarded schema-normalized; an
invalid one produces exactly an error log. -/
theorem c2_emit_validation_gate_witness :
    (emit svcW "send" 2).2 = [Action.transportEmit "send" 2] ∧
    (emit svcW "send" 3).2 = [Action.logError "emit" "send"] :=
  ⟨(c2_emit_validation_gate svcW "send" 2 { connected := true, bindings := [] }
      (by decide)).2.1 2 (by decide),
   (c2_emit_validation_gate svcW "send" 3 { connected := true, bindings := [] }
      (by decide)).2.2.1 (by decide)⟩

/-- C3: `emitQueued(E, P)` while the transport is disconnected (no socket,
or socket not connected) appends `(E, P)` to the queue and does not touch
the transport (no transport action, socket state unchanged); on the next
`connect` event the whole queue is handed to the transport in insertion
order, each entry exactly once, and the caller's connect hook comes after
the last flushed emit in the trace; the queue is empty afterwards. -/
theorem c3_queue_fifo_drain :
    (∀ (s : Svc) (ev : Event) (v : Val),
        (s.sock = none ∨ ∃ sk, s.sock = some sk ∧ sk.connected = false) →
        (emitQueued s ev v).1.queue = s.queue ++ [(ev, v)] ∧
        (emitQueued s ev v).2 = [] ∧
        (emitQueued s ev v).1.sock = s.sock) ∧
    (∀ (s : Svc) (sk : Sock), s.sock = some sk →
        (connectStep s).2 =
          s.queue.map (fun p => Action.transportEmit p.1 p.2) ++ [Action.onConnectHook] ∧
        (connectStep s).1.queue = []) := by
  constructor
  · rintro s ev v (hs | ⟨sk, hs, hc⟩)
    · simp [emitQueued, hs]
    · simp [emitQueued, hs, hc]
  · intro s sk hs
    simp [connectStep, hs]

/-- C3, witness: queue one payload while disconnected, then connect. -/
theorem c3_queue_fifo_drain_witness :
    (emitQueued svcD "send" 2).1.queue = svcD.queue ++ [("send", 2)] ∧
    (connectStep (emitQueued svcD "send" 2).1).2 =
      (emitQueued svcD "send" 2).1.queue.map (fun p => Action.transportEmit p.1 p.2) ++
        [Action.onConnectHook] :=
  ⟨(c3_queue_fifo_drain.1 svcD "send" 2
      (Or.inr ⟨{ connected := false, bindings := [] }, by decide, rfl⟩)).1,
   (c3_queue_fifo_drain.2 (emitQueued svcD "send" 2).1
      { connected := false, bindings := [] } (by decide)).1⟩

/-- C4, counterexample: the claim that entries not yet emitted at the
moment of a mid-flush disconnection remain in the queue is false.  The
flush loop's condition consults only the queue length
(src/client.ts:120), never the connection state: with queue
`[("a",1), ("b",2)]` and the transport disconnecting after iteration 0,
the loop still removes `("b",2)` and hands it over while disconnected
(recorded flag `false`), and the remaining queue is `[]`, not
`[("b",2)]`. -/
theorem c4_midflush_counterexample :
    (flushLoop [("a", 1), ("b", 2)] (fun i => i == 0) 0).2 = [] ∧
    (false, ("b", 2)) ∈ (flushLoop [("a", 1), ("b", 2)] (fun i => i == 0) 0).1 := by
  decide

/-- C4, amended: `flushQueue` unconditionally drains the entire queue in
FIFO order — under every schedule of mid-flush connectivity changes, every
entry is removed and handed to the socket's emit (in order, regardless of
the connected flag at that moment), and no entry remains queued. -/
theorem c4_amended_flush_drains_all :
    ∀ (q : List (Event × Val)) (connAt : Nat → Bool) (i : Nat),
      (flushLoop q connAt i).1.map (fun x => x.2) = q ∧
      (flushLoop q connAt i).2 = [] := by
  intro q
  induction q with
  | nil => intro connAt i; simp [flushLoop]
  | cons hd tl ih =>
    intro connAt i
    cases hd with
    | mk e d =>
      have h := ih connAt (i + 1)
      simp [flushLoop, h.1, h.2]

/-- C5: a handler registered through `on` before a disconnect is
re-attached automatically after reconnection: the wrapped closure built
around it is stored in the persistent registry, survives
`disconnect(); init()`, is re-bound to the fresh socket by the rebind
pass of the connect hook, and a subsequent delivery of the event with a
payload that parses invokes the caller's handler with the parsed value —
no re-registration by the caller.  (`closuresFreshB` says the id source
is fresh, true in every API-reachable state.) -/
theorem c5_on_rebinds_after_reconnect :
    ∀ (s : Svc) (ev : Event) (h : Nat),
      closuresFreshB s = true →
      (ev, Fn.gen s.nextId) ∈
        sockBindings ((connectStep (init (disconnect (on' s ev (Fn.user h))))).1) ∧
      (∀ raw d, s.onEvents ev raw = some d →
        Action.callerHandler h d ∈
          (deliver ((connectStep (init (disconnect (on' s ev (Fn.user h))))).1) ev raw).2) := by
  intro s ev h hfresh
  have hL : (on' s ev (Fn.user h)).listeners =
      registryAdd s.listeners ev (Fn.gen s.nextId) := by
    simp [on', sockOn_listeners]
  have hC : (on' s ev (Fn.user h)).closures =
      s.closures ++ [(s.nextId, FnBody.wrappedOn ev (Fn.user h))] := by
    simp [on', sockOn_closures]
  have hO : (on' s ev (Fn.user h)).onEvents = s.onEvents := by
    simp [on', sockOn_onEvents]
  have hmemb : (ev, Fn.gen s.nextId) ∈ rebindList (on' s ev (Fn.user h)).listeners := by
    rw [hL]
    exact mem_rebind_registryAdd s.listeners ev (Fn.gen s.nextId)
  refine ⟨?_, ?_⟩
  · show (ev, Fn.gen s.nextId) ∈ rebindList (on' s ev (Fn.user h)).listeners
    exact hmemb
  · intro raw d hp
    have hfresh' : ∀ q ∈ s.closures, q.1 ≠ s.nextId := by
      simp only [closuresFreshB, List.all_eq_true, decide_eq_true_eq] at hfresh
      exact fun q hq => Nat.ne_of_lt (hfresh q hq)
    have hb : lookupClosure
        ((connectStep (init (disconnect (on' s ev (Fn.user h))))).1).closures s.nextId =
        some (FnBody.wrappedOn ev (Fn.user h)) := by
      show lookupClosure (on' s ev (Fn.user h)).closures s.nextId = _
      rw [hC]
      exact lookupClosure_append_fresh s.closures s.nextId _ hfresh'
    have hp' :
        ((connectStep (init (disconnect (on' s ev (Fn.user h))))).1).onEvents ev raw =
          some d := by
      show (on' s ev (Fn.user h)).onEvents ev raw = some d
      rw [hO]; exact hp
    have hmemf : Fn.gen s.nextId ∈
        ((rebindList (on' s ev (Fn.user h)).listeners).filter
          (fun p => p.1 == ev)).map Prod.snd :=
      List.mem_map.mpr ⟨(ev, Fn.gen s.nextId),
        List.mem_filter.mpr ⟨hmemb, by simp⟩, rfl⟩
    show Action.callerHandler h d ∈
      (deliverList ((connectStep (init (disconnect (on' s ev (Fn.user h))))).1)
        (((rebindList (on' s ev (Fn.user h)).listeners).filter
          (fun p => p.1 == ev)).map Prod.snd) raw).2
    exact deliverList_wrapped_user _ _ raw ev h s.nextId d hmemf hb hp'

/-- C5, witness: register `user 5` on a connected service, disconnect,
re-init, connect; the wrapped closure is rebound and the handler fires. -/
theorem c5_on_rebinds_after_reconnect_witness :
    ("m", Fn.gen svcW.nextId) ∈
      sockBindings ((connectStep (init (disconnect (on' svcW "m" (Fn.user 5))))).1) ∧
    Action.callerHandler 5 3 ∈
      (deliver ((connectStep (init (disconnect (on' svcW "m" (Fn.user 5))))).1) "m" 3).2 :=
  ⟨(c5_on_rebinds_after_reconnect svcW "m" 5 (by decide)).1,
   (c5_on_rebinds_after_reconnect svcW "m" 5 (by decide)).2 3 3 (by decide)⟩

/-- C6: contrary to the claim, a timed-out `waitFor` leaves a dangling
handler.  The timeout does reject the promise with the timeout error, but
its cleanup `this.off(event, handler)` passes the inner `handler` closure
(`gen 0`) while the socket holds the `wrapped` closure (`gen 1`), so
nothing is removed: the wrapped handler is still bound after the timeout,
and a later valid `"message"` event still invokes the expired waiter's
handler.  This contradicts the source's own cleanup intent and the
documented behaviour of `off` ("removes a listener"). -/
theorem c6_waitfor_timeout_dangling :
    waiterPromise svc6t 0 = some PState.rejectedTimeout ∧
    ("message", Fn.gen 1) ∈ sockBindings svc6t ∧
    Action.waiterInvoked 0 1 ∈ (deliver svc6t "message" 1).2 := by
  decide

/-- C7: contrary to the claim, `off(E, h)` after `on(E, h)` does not
remove anything: `on` bound the wrapped closure `gen 0`, while `off`
forwards the caller's own function `user 7` to `socket.off`, which
matches no binding.  The binding list is unchanged and a subsequent
`"message"` event still invokes the caller's handler. -/
theorem c7_off_removes_nothing :
    sockBindings svc7 = [("message", Fn.gen 0)] ∧
    Action.callerHandler 7 1 ∈ (deliver svc7 "message" 1).2 := by
  decide

/-- C8, counterexample: the claim that `reconnectWithBackoff` increments
the attempt count at call time (after scheduling) is false.  On a
configured service with `retryCount = 0`, the call schedules the 1000 ms
timer but leaves `retryCount` at 0 — the increment sits inside the timer
callback and only happens when the timer fires. -/
theorem c8_increment_not_at_call :
    (reconnectWithBackoff svc8).backoff = [1000] ∧
    (reconnectWithBackoff svc8).retryCount = 0 := by
  decide

/-- C8, amended: with a configured address, `reconnectWithBackoff`
computes the delay `min(1000 * 2 ^ retryCount, 30000)` from the attempt
count at call time and schedules a deferred timer, leaving every other
field — including `retryCount` — unchanged; when the timer fires, the
callback runs `init()` (fresh disconnected socket) and increments
`retryCount` afterwards.  Without a configured address the call is a
no-op. -/
theorem c8_amended_backoff :
    ∀ s : Svc,
      (s.inited = true → s.urlTruthy = true →
        (reconnectWithBackoff s).backoff =
          s.backoff ++ [min (1000 * 2 ^ s.retryCount) 30000] ∧
        (reconnectWithBackoff s).retryCount = s.retryCount ∧
        (reconnectWithBackoff s).sock = s.sock) ∧
      (∀ d rest, s.backoff = d :: rest →
        (fireBackoffTimer s).retryCount = s.retryCount + 1 ∧
        (fireBackoffTimer s).sock = some { connected := false, bindings := [] } ∧
        (fireBackoffTimer s).inited = true ∧
        (fireBackoffTimer s).backoff = rest) ∧
      ((s.inited && s.urlTruthy) = false → reconnectWithBackoff s = s) := by
  intro s
  refine ⟨?_, ?_, ?_⟩
  · intro h1 h2
    simp [reconnectWithBackoff, h1, h2]
  · intro d rest hb
    simp [fireBackoffTimer, hb, init]
  · intro h
    simp [reconnectWithBackoff, h]

/-- C8, witness for the amended theorem. -/
theorem c8_amended_backoff_witness :
    (reconnectWithBackoff svc8).backoff =
      svc8.backoff ++ [min (1000 * 2 ^ svc8.retryCount) 30000] ∧
    (fireBackoffTimer { svc8 with backoff := [1000] }).retryCount = svc8.retryCount + 1 :=
  ⟨((c8_amended_backoff svc8).1 rfl rfl).1,
   ((c8_amended_backoff { svc8 with backoff := [1000] }).2.1 1000 [] rfl).1⟩

/-- C9: for a schema-valid payload, `emitAsync` called while the transport
is disconnected or absent returns with state untouched (nothing queued),
no transport action, and a promise already rejected with the not-connected
error — and a rejected promise settles the same way whatever ack arrives
later, so a later reconnection cannot change the outcome.  When connected,
the parsed payload is emitted with an ack callback and the promise
resolves with the ack payload iff the transport invokes the callback. -/
theorem c9_emitasync_not_connected :
    ∀ (s : Svc) (ev : Event) (v p : Val), s.emitEvents ev v = some p →
      ((s.sock = none ∨ ∃ sk, s.sock = some sk ∧ sk.connected = false) →
        emitAsync s ev v = (s, [], EmitAsyncResult.rejectedNotConnected) ∧
        (∀ ack, ackSettle EmitAsyncResult.rejectedNotConnected ack =
          AsyncOutcome.rejectedNotConnected)) ∧
      (∀ sk, s.sock = some sk → sk.connected = true →
        emitAsync s ev v =
          (s, [Action.transportEmitAck ev p], EmitAsyncResult.pendingAck ev p) ∧
        (∀ r, ackSettle (EmitAsyncResult.pendingAck ev p) (some r) =
          AsyncOutcome.resolved r) ∧
        ackSettle (EmitAsyncResult.pendingAck ev p) none = AsyncOutcome.unresolved) := by
  intro s ev v p hp
  constructor
  · rintro (hs | ⟨sk, hs, hc⟩)
    · exact ⟨by simp [emitAsync, hp, hs], fun ack => by cases ack <;> rfl⟩
    · exact ⟨by simp [emitAsync, hp, hs, hc], fun ack => by cases ack <;> rfl⟩
  · intro sk hs hc
    exact ⟨by simp [emitAsync, hp, hs, hc], fun r => rfl, rfl⟩

/-- C9, witness: a valid payload on a disconnected (resp. connected)
service. -/
theorem c9_emitasync_not_connected_witness :
    emitAsync svcD "send" 2 = (svcD, [], EmitAsyncResult.rejectedNotConnected) ∧
    emitAsync svcW "send" 2 =
      (svcW, [Action.transportEmitAck "send" 2], EmitAsyncResult.pendingAck "send" 2) :=
  ⟨((c9_emitasync_not_connected svcD "send" 2 2 (by decide)).1
      (Or.inr ⟨{ connected := false, bindings := [] }, by decide, rfl⟩)).1,
   ((c9_emitasync_not_connected svcW "send" 2 2 (by decide)).2
      { connected := true, bindings := [] } (by decide) rfl).1⟩

/-- C10: when a `waitFor(E, t)` promise rejects because an `E` event
arrived whose payload fails validation inside the waiter (possible with a
transform-style schema: the wrapper's parse succeeds with a normalized
value that the waiter's own re-parse rejects), no cleanup runs on that
rejection path: the promise is rejected with the validation error while
the timeout timer stays armed; the later timer firing runs the
deregistration/timeout branch against the already-settled promise (the
attempted `off` removes nothing and the rejection is not overwritten);
the wrapped handler stays in the persistent registry and bound on the
socket, a later `E` event still invokes the settled waiter's handler, and
after a disconnect/reconnect the wrapped handler is re-attached by the
rebind pass. -/
theorem c10_waitfor_invalid_no_cleanup :
    ∀ (onE emitE : Event → Schema) (ev : Event) (raw d : Val) (t : Nat),
      onE ev raw = some d → onE ev d = none →
      waiterPromise (c10post onE emitE ev raw t) 0 = some PState.rejectedValidation ∧
      waiterTimerOn (c10post onE emitE ev raw t) 0 = some true ∧
      (ev, Fn.gen 1) ∈ sockBindings (c10post onE emitE ev raw t) ∧
      regLookup (c10post onE emitE ev raw t).listeners ev = some [Fn.gen 1] ∧
      waiterPromise (fireWaitTimer (c10post onE emitE ev raw t) 0) 0 =
        some PState.rejectedValidation ∧
      waiterTimerOn (fireWaitTimer (c10post onE emitE ev raw t) 0) 0 = some false ∧
      (ev, Fn.gen 1) ∈ sockBindings (fireWaitTimer (c10post onE emitE ev raw t) 0) ∧
      Action.waiterInvoked 0 d ∈ (deliver (c10post onE emitE ev raw t) ev raw).2 ∧
      (ev, Fn.gen 1) ∈
        sockBindings ((connectStep (init (disconnect (c10post onE emitE ev raw t)))).1) := by
  intro onE emitE ev raw d t h1 h2
  have hpost : c10post onE emitE ev raw t =
      { onEvents := onE, emitEvents := emitE,
        sock := some { connected := true, bindings := [(ev, Fn.gen 1)] },
        inited := true, urlTruthy := true, retryCount := 0, queue := [],
        listeners := [(ev, [Fn.gen 1])],
        closures := [(0, FnBody.waitHandler 0), (1, FnBody.wrappedOn ev (Fn.gen 0))],
        waiters := [⟨0, ev, t, true, PState.rejectedValidation, Fn.gen 0⟩],
        middlewares := [], backoff := [], nextId := 2 } := by
    simp [c10post, connSvc, mkSvc, init, connectStep, waitFor, on', sockOn, registryAdd,
          rebindList, deliver, deliverList, runBound, runInner, runWaiter, lookupClosure,
          findWaiter, updWaiter, mwActs, h1, h2]
  rw [hpost]
  refine ⟨by simp [waiterPromise, findWaiter], by simp [waiterTimerOn, findWaiter],
    by simp [sockBindings], by simp [regLookup], ?_, ?_, ?_, ?_, ?_⟩
  · simp [fireWaitTimer, findWaiter, sockOff, updWaiter, waiterPromise]
  · simp [fireWaitTimer, findWaiter, sockOff, updWaiter, waiterTimerOn]
  · simp [fireWaitTimer, findWaiter, sockOff, updWaiter, sockBindings]
  · simp [deliver, deliverList, runBound, runInner, runWaiter, lookupClosure, findWaiter,
          updWaiter, mwActs, h1, h2]
  · simp [disconnect, init, connectStep, sockBindings, rebindList]

/-- C10, witness: a transform-style schema (`3 ↦ 7`, `7` rejected) on a
concrete run. -/
theorem c10_waitfor_invalid_no_cleanup_witness :
    waiterPromise (c10post stepOnE emitEW "m" 3 50) 0 = some PState.rejectedValidation ∧
    Action.waiterInvoked 0 7 ∈ (deliver (c10post stepOnE emitEW "m" 3 50) "m" 3).2 :=
  ⟨(c10_waitfor_invalid_no_cleanup stepOnE emitEW "m" 3 7 50 (by decide) (by decide)).1,
   (c10_waitfor_invalid_no_cleanup stepOnE emitEW "m" 3 7 50
      (by decide) (by decide)).2.2.2.2.2.2.2.1⟩

end TypeSocket
